import Mathlib

/-!
# Verification of the s3-access-control-adapter gateway

A shallow embedding, in Lean 4, of the access-control core of the
`s3-access-control-adapter` repository: the wildcard matcher, the ARN
helpers, the IAM-style policy engine, the request parser's action table,
the SigV4 `Authorization`-header parser and timestamp validation, and the
gateway request handler with its audit trail.  Each definition mirrors the
corresponding Go function; impure details (wall-clock timestamps, UUID
generation, the HMAC signature computation, the backend S3 call) are
passed in as explicit parameters or oracles so that the control flow and
data flow of the Go code are preserved exactly.
-/

namespace S3ACA

/-! ## Matcher (`internal/policy/matcher.go`)

`matchPattern` in Go converts an IAM glob to a regular expression
(`*` becomes `.*`, `?` becomes `.`, every other rune is escaped) and runs
it anchored at both ends.  In Go's regexp, `.` does not match a newline,
so the wildcards match any characters except `\n`.  `globMatch` below is
the direct recursive matcher with exactly that language. -/

/-- The matcher, with explicit fuel so that the recursion is structural
(and therefore kernel-reducible).  Each recursive call strictly
decreases `s.length + p.length`, so `globMatch` below always supplies
enough fuel and the `0` clause is never reached. -/
def globAux : Nat → List Char → List Char → Bool
  | 0, _, _ => false
  | _ + 1, s, [] => s.isEmpty
  | fuel + 1, s, '*' :: p =>
      globAux fuel s p ||
        (match s with
         | [] => false
         | c :: s2 => c != '\n' && globAux fuel s2 ('*' :: p))
  | _ + 1, [], _ :: _ => false
  | fuel + 1, c :: s, pc :: p =>
      if pc = '?' then c != '\n' && globAux fuel s p
      else c = pc && globAux fuel s p

def globMatch (s p : List Char) : Bool :=
  globAux (s.length + p.length + 1) s p

def matchPattern (str pat : String) : Bool :=
  globMatch str.toList pat.toList

def MatchAction (action : String) (patterns : List String) : Bool :=
  patterns.any (fun pat => matchPattern action pat)

def MatchResource (resource : String) (patterns : List String) : Bool :=
  patterns.any (fun pat => matchPattern resource pat)

/-- `strings.SplitN(s, "/", 2)`: the part before the first `/` and,
when a `/` occurs, the remainder after it. -/
def splitOnceChar (sep : Char) : List Char → List Char × Option (List Char)
  | [] => ([], none)
  | c :: cs =>
      if c = sep then ([], some cs)
      else
        let r := splitOnceChar sep cs
        (c :: r.1, r.2)

def matchScopePattern (bucket scopePattern : String) : Bool :=
  matchPattern bucket (String.mk (splitOnceChar '/' scopePattern.toList).1)

def MatchScope (bucket : String) (scopes : List String) : Bool :=
  scopes.any (fun scope => matchScopePattern bucket scope)

/-! ## ARN helpers (`internal/policy/matcher.go`) -/

def arnHead : String := "arn:aws:s3:::"

def BuildResourceARN (bucket key : String) : String :=
  if key = "" then arnHead ++ bucket
  else arnHead ++ bucket ++ "/" ++ key

/-- `strings.TrimPrefix` guarded by `strings.HasPrefix`. -/
def stripLit : List Char → List Char → Option (List Char)
  | [], cs => some cs
  | _ :: _, [] => none
  | l :: ls, c :: cs => if c = l then stripLit ls cs else none

def ParseResourceARN (arn : String) : String × String × Bool :=
  match stripLit arnHead.toList arn.toList with
  | none => ("", "", false)
  | some rest =>
      match splitOnceChar '/' rest with
      | (b, none) => (String.mk b, "", true)
      | (b, some k) => (String.mk b, String.mk k, true)

/-! ## Policy engine data model (`internal/policy/types.go`)

`Effect` and `DenyReason` are string types in Go; they are kept as
strings here, with the Go constants as definitions.  The zero value of a
Go string is `""`, so an unset `DenyReason` is the empty string. -/

def EffectAllow : String := "Allow"
def EffectDeny : String := "Deny"

def DenyTenantBoundary : String := "DENY_TENANT_BOUNDARY"
def DenyPolicy : String := "DENY_POLICY"
def DenyInvalidResource : String := "DENY_INVALID_RESOURCE"
def DenyAuthFailed : String := "DENY_AUTH_FAILED"
def DenyInternalError : String := "DENY_INTERNAL_ERROR"

/-- A policy statement.  Go stores conditions as
`map[string]map[string]string` (operator → key → expected value); the map
is modelled as an association list, which is adequate because
`evaluateConditions` is a conjunction over all entries and therefore
independent of iteration order. -/
structure Statement where
  sid : String
  effect : String
  actions : List String
  resources : List String
  conditions : List (String × List (String × String))
deriving Repr, DecidableEq

structure Policy where
  name : String
  version : String
  statements : List Statement
deriving Repr, DecidableEq

structure EvalContext where
  clientID : String
  tenantID : String
  action : String
  resource : String
  bucket : String
  key : String
  conditions : List (String × String)
deriving Repr, DecidableEq

structure Decision where
  allowed : Bool
  denyReason : String
  matchedPolicy : String
  matchedStatement : String
deriving Repr, DecidableEq

def NewAllowDecision (policyName statementSid : String) : Decision :=
  { allowed := true, denyReason := "", matchedPolicy := policyName,
    matchedStatement := statementSid }

def NewDenyDecision (reason policyName statementSid : String) : Decision :=
  { allowed := false, denyReason := reason, matchedPolicy := policyName,
    matchedStatement := statementSid }

def DefaultDenyDecision : Decision :=
  { allowed := false, denyReason := DenyPolicy, matchedPolicy := "",
    matchedStatement := "" }

/-! ## Policy engine evaluation (`internal/policy/engine.go`)

The engine's `policies` map is modelled as a list of policies looked up
by name (names are unique by the load-time invariant). -/

def getPolicy (store : List Policy) (name : String) : Option Policy :=
  store.find? (fun p => p.name = name)

def evaluateCondition (operator actual expected : String) : Bool :=
  if operator = "StringEquals" then actual = expected
  else if operator = "StringNotEquals" then actual ≠ expected
  else if operator = "StringLike" then MatchAction actual [expected]
  else if operator = "StringNotLike" then !MatchAction actual [expected]
  else false

def evaluateConditions (ctx : EvalContext)
    (conditions : List (String × List (String × String))) : Bool :=
  conditions.all (fun block =>
    block.2.all (fun kv =>
      match ctx.conditions.lookup kv.1 with
      | none => false
      | some actual => evaluateCondition block.1 actual kv.2))

def statementMatches (ctx : EvalContext) (stmt : Statement) : Bool :=
  if !MatchAction ctx.action stmt.actions then false
  else if !MatchResource ctx.resource stmt.resources then false
  else if stmt.conditions.length > 0 && !evaluateConditions ctx stmt.conditions
    then false
  else true

/-- The statement loop of `evaluatePolicy`, with the `allowDecision`
accumulator made explicit. -/
def evaluatePolicyAux (ctx : EvalContext) (policyName : String) :
    List Statement → Option Decision → Option Decision
  | [], acc => acc
  | stmt :: rest, acc =>
      if !statementMatches ctx stmt then
        evaluatePolicyAux ctx policyName rest acc
      else if stmt.effect = EffectDeny then
        some (NewDenyDecision DenyPolicy policyName stmt.sid)
      else if stmt.effect = EffectAllow && acc.isNone then
        evaluatePolicyAux ctx policyName rest
          (some (NewAllowDecision policyName stmt.sid))
      else
        evaluatePolicyAux ctx policyName rest acc

def evaluatePolicy (ctx : EvalContext) (policy : Policy) : Option Decision :=
  evaluatePolicyAux ctx policy.name policy.statements none

/-- The policy-name loop of `Evaluate`, with the `allowDecision`
accumulator made explicit. -/
def EvaluateAux (store : List Policy) (ctx : EvalContext) :
    List String → Option Decision → Decision
  | [], acc =>
      match acc with
      | some d => d
      | none => DefaultDenyDecision
  | name :: rest, acc =>
      match getPolicy store name with
      | none => EvaluateAux store ctx rest acc
      | some policy =>
          match evaluatePolicy ctx policy with
          | none => EvaluateAux store ctx rest acc
          | some d =>
              if !d.allowed then d
              else EvaluateAux store ctx rest
                (if acc.isNone then some d else acc)

def Evaluate (store : List Policy) (ctx : EvalContext)
    (policyNames : List String) : Decision :=
  EvaluateAux store ctx policyNames none

/-! ## Request parser (`internal/proxy/request.go`)

`determineAction` consults the request's query parameters only through
`query.Has(k)` for a fixed set of keys (and `query["copy"]`), so the
query is modelled as the presence flags for exactly those keys. -/

structure QueryValues where
  acl : Bool
  versioning : Bool
  lifecycle : Bool
  policy : Bool
  tagging : Bool
  uploads : Bool
  uploadId : Bool
  listType : Bool
  prefixKey : Bool
  delimiter : Bool
  copy : Bool
deriving Repr, DecidableEq

def emptyQuery : QueryValues :=
  { acl := false, versioning := false, lifecycle := false, policy := false,
    tagging := false, uploads := false, uploadId := false, listType := false,
    prefixKey := false, delimiter := false, copy := false }

def MethodGet : String := "GET"
def MethodHead : String := "HEAD"
def MethodPut : String := "PUT"
def MethodPost : String := "POST"
def MethodDelete : String := "DELETE"

/-- `determineAction`.  Each Go `if query.Has(k) { ... }` block checks
the method inside the block and falls through to the next block when no
inner case applies, so each block is guarded here by the flag together
with the methods the block handles. -/
def determineAction (method bucket key : String) (query : QueryValues) :
    String :=
  if query.acl = true ∧ (method = MethodGet ∨ method = MethodPut) then
    if method = MethodGet then
      if key = "" then "s3:GetBucketAcl" else "s3:GetObjectAcl"
    else
      if key = "" then "s3:PutBucketAcl" else "s3:PutObjectAcl"
  else if query.versioning = true ∧
      (method = MethodGet ∨ method = MethodPut) then
    if method = MethodGet then "s3:GetBucketVersioning"
    else "s3:PutBucketVersioning"
  else if query.lifecycle = true ∧
      (method = MethodGet ∨ method = MethodPut ∨ method = MethodDelete) then
    if method = MethodGet then "s3:GetLifecycleConfiguration"
    else if method = MethodPut then "s3:PutLifecycleConfiguration"
    else "s3:DeleteLifecycleConfiguration"
  else if query.policy = true ∧
      (method = MethodGet ∨ method = MethodPut ∨ method = MethodDelete) then
    if method = MethodGet then "s3:GetBucketPolicy"
    else if method = MethodPut then "s3:PutBucketPolicy"
    else "s3:DeleteBucketPolicy"
  else if query.tagging = true ∧
      (method = MethodGet ∨ method = MethodPut ∨ method = MethodDelete) then
    if method = MethodGet then
      if key = "" then "s3:GetBucketTagging" else "s3:GetObjectTagging"
    else if method = MethodPut then
      if key = "" then "s3:PutBucketTagging" else "s3:PutObjectTagging"
    else
      if key = "" then "s3:DeleteBucketTagging" else "s3:DeleteObjectTagging"
  else if query.uploads = true ∧
      (method = MethodPost ∨ method = MethodGet) then
    if method = MethodPost then "s3:PutObject"
    else "s3:ListBucketMultipartUploads"
  else if query.uploadId = true ∧
      (method = MethodPut ∨ method = MethodPost ∨ method = MethodDelete ∨
        method = MethodGet) then
    if method = MethodPut then "s3:PutObject"
    else if method = MethodPost then "s3:PutObject"
    else if method = MethodDelete then "s3:AbortMultipartUpload"
    else "s3:ListMultipartUploadParts"
  else if key = "" ∧
      (method = MethodGet ∨ method = MethodHead ∨ method = MethodPut ∨
        method = MethodDelete) then
    if method = MethodGet then "s3:ListBucket"
    else if method = MethodHead then "s3:ListBucket"
    else if method = MethodPut then "s3:CreateBucket"
    else "s3:DeleteBucket"
  else
    if method = MethodGet then "s3:GetObject"
    else if method = MethodHead then "s3:GetObject"
    else if method = MethodPut then "s3:PutObject"
    else if method = MethodPost then "s3:PutObject"
    else if method = MethodDelete then "s3:DeleteObject"
    else "s3:Unknown"

/-- `parsePath`: strip one leading `/`, then split once on `/` into
bucket and key. -/
def parsePath (path : String) : String × String :=
  let cs :=
    match path.toList with
    | '/' :: rest => rest
    | other => other
  match splitOnceChar '/' cs with
  | (b, none) => (String.mk b, "")
  | (b, some k) => (String.mk b, String.mk k)

/-! ## SigV4 Authorization header parsing (`internal/auth/sigv4.go`)

`ParseAuthHeader` applies `authHeaderRegex.FindStringSubmatch`.  The
regex is not anchored, so Go finds the leftmost match anywhere in the
header string.  For this particular regex the match attempt at a given
start position is deterministic: every repetition is either of fixed
length (`\d{8}`) or a greedy character-class run whose class excludes
the literal that follows it (`[^/]+` before `/`, `[^,]+` before `,`,
`\s+`/`\s*` before a non-space literal, and `[a-f0-9]+` at the end of
the pattern).  `matchAuthAt` is that deterministic attempt and
`findAuth` scans the start positions left to right. -/

structure SigV4Components where
  accessKey : String
  date : String
  region : String
  service : String
  signedHeaders : List String
  signature : String
deriving Repr, DecidableEq

/-- RE2's `\s` character class: `[\t\n\f\r ]`. -/
def isSpaceChar (c : Char) : Bool :=
  c = ' ' || c = '\t' || c = '\n' || c = '\r' || c = Char.ofNat 12

/-- RE2's `[a-f0-9]` character class. -/
def isHexLower (c : Char) : Bool :=
  c.isDigit || ('a' ≤ c && c ≤ 'f')

/-- A greedy `+` run over a character class: fails when the run is
empty, otherwise returns the run and the rest. -/
def takeClass1 (p : Char → Bool) (cs : List Char) :
    Option (List Char × List Char) :=
  match cs.takeWhile p with
  | [] => none
  | tk => some (tk, cs.drop tk.length)

/-- A greedy `*` run over a character class. -/
def takeClass0 (p : Char → Bool) (cs : List Char) : List Char :=
  cs.dropWhile p

/-- `\d{8}`: exactly eight digits. -/
def takeDigits8 (cs : List Char) : Option (List Char × List Char) :=
  let tk := cs.take 8
  if tk.length = 8 && tk.all Char.isDigit then some (tk, cs.drop 8)
  else none

def schemeLit : List Char := "AWS4-HMAC-SHA256".toList

/-- `strings.Split(s, ";")`: split at every separator, keeping empty
pieces. -/
def splitAllChar (sep : Char) : List Char → List (List Char)
  | [] => [[]]
  | c :: cs =>
      let r := splitAllChar sep cs
      if c = sep then [] :: r
      else
        match r with
        | h :: t => (c :: h) :: t
        | [] => [[c]]

/-- After the fields of the `Credential=` clause have been consumed,
match the tail of the regex:
`,\s*SignedHeaders=([^,]+),\s*Signature=([a-f0-9]+)` together with the
literal `/aws4_request` that closes the credential scope. -/
def matchAuthTail (ak date region service : List Char) (cs : List Char) :
    Option SigV4Components :=
  match stripLit "/aws4_request,".toList cs with
  | none => none
  | some cs1 =>
      match stripLit "SignedHeaders=".toList (takeClass0 isSpaceChar cs1) with
      | none => none
      | some cs2 =>
          match takeClass1 (fun c => c ≠ ',') cs2 with
          | none => none
          | some (sh, cs3) =>
              match stripLit [','] cs3 with
              | none => none
              | some cs4 =>
                  match stripLit "Signature=".toList
                      (takeClass0 isSpaceChar cs4) with
                  | none => none
                  | some cs5 =>
                      match takeClass1 isHexLower cs5 with
                      | none => none
                      | some (sig, _) =>
                          some { accessKey := String.mk ak,
                                 date := String.mk date,
                                 region := String.mk region,
                                 service := String.mk service,
                                 signedHeaders :=
                                   (splitAllChar ';' sh).map String.mk,
                                 signature := String.mk sig }

/-- The deterministic attempt of `authHeaderRegex` at one start
position, yielding the six submatches on success. -/
def matchAuthAt (cs : List Char) : Option SigV4Components :=
  match stripLit schemeLit cs with
  | none => none
  | some cs1 =>
      match takeClass1 isSpaceChar cs1 with
      | none => none
      | some (_, cs2) =>
          match stripLit "Credential=".toList cs2 with
          | none => none
          | some cs3 =>
              match takeClass1 (fun c => c ≠ '/') cs3 with
              | none => none
              | some (ak, cs4) =>
                  match stripLit ['/'] cs4 with
                  | none => none
                  | some cs5 =>
                      match takeDigits8 cs5 with
                      | none => none
                      | some (date, cs6) =>
                          match stripLit ['/'] cs6 with
                          | none => none
                          | some cs7 =>
                              match takeClass1 (fun c => c ≠ '/') cs7 with
                              | none => none
                              | some (region, cs8) =>
                                  match stripLit ['/'] cs8 with
                                  | none => none
                                  | some cs9 =>
                                      match takeClass1 (fun c => c ≠ '/')
                                          cs9 with
                                      | none => none
                                      | some (service, cs10) =>
                                          matchAuthTail ak date region
                                            service cs10

/-- `FindStringSubmatch`: the attempt at the leftmost start position
that succeeds. -/
def findAuth : List Char → Option SigV4Components
  | [] => matchAuthAt []
  | c :: cs =>
      match matchAuthAt (c :: cs) with
      | some comps => some comps
      | none => findAuth cs

def authHeaderFormatError : String := "invalid Authorization header format"

def ParseAuthHeader (authHeader : String) :
    Except String SigV4Components :=
  match findAuth authHeader.toList with
  | none => .error authHeaderFormatError
  | some comps => .ok comps

/-! ## X-Amz-Date parsing and signature validation (`internal/auth/sigv4.go`)

`time.Parse("20060102T150405Z", s)` accepts exactly a string of eight
digits, a literal `T`, six digits and a literal `Z`, with the month,
day-of-month (against the month's length in that year), hour, minute
and second fields range-checked.  Times are modelled as a count of
seconds in the proleptic Gregorian calendar from year 0; `now` is an
explicit parameter in place of `time.Now().UTC()`. -/

def isLeapYear (y : Nat) : Bool :=
  y % 4 = 0 && (y % 100 ≠ 0 || y % 400 = 0)

def daysInMonth (y m : Nat) : Nat :=
  if m = 2 then (if isLeapYear y then 29 else 28)
  else if m = 4 || m = 6 || m = 9 || m = 11 then 30
  else 31

/-- Days in the months of year `y` strictly before month `m`. -/
def daysBeforeMonth (y m : Nat) : Nat :=
  (List.range m).foldl (fun acc i => if i = 0 then acc else acc + daysInMonth y i) 0

/-- Leap years in `[0, y)`; year 0 is a leap year. -/
def leapsBefore (y : Nat) : Nat :=
  (y + 3) / 4 - (y + 99) / 100 + (y + 399) / 400

def dateToSeconds (y mo d h mi s : Nat) : Int :=
  let days := 365 * y + leapsBefore y + daysBeforeMonth y mo + (d - 1)
  ((days * 24 + h) * 60 + mi) * 60 + s

def digitVal (c : Char) : Nat := c.toNat - '0'.toNat

def twoDigits (a b : Char) : Nat := 10 * digitVal a + digitVal b

def parseAmzDate (s : String) : Option Int :=
  match s.toList with
  | [y1, y2, y3, y4, m1, m2, d1, d2, 'T', h1, h2, mi1, mi2, s1, s2, 'Z'] =>
      if [y1, y2, y3, y4, m1, m2, d1, d2, h1, h2, mi1, mi2, s1, s2].all
          Char.isDigit then
        let y := 10 * (10 * (10 * digitVal y1 + digitVal y2) + digitVal y3) +
          digitVal y4
        let mo := twoDigits m1 m2
        let d := twoDigits d1 d2
        let h := twoDigits h1 h2
        let mi := twoDigits mi1 mi2
        let sec := twoDigits s1 s2
        if 1 ≤ mo && mo ≤ 12 && 1 ≤ d && d ≤ daysInMonth y mo &&
            h ≤ 23 && mi ≤ 59 && sec ≤ 59 then
          some (dateToSeconds y mo d h mi sec)
        else none
      else none
  | _ => none

/-! ## Request and credential model -/

structure Credential where
  accessKey : String
  secretKey : String
  clientID : String
  tenantID : String
  description : String
  policies : List String
  scopes : List String
deriving Repr, DecidableEq

/-- The parts of the inbound `http.Request` the gateway reads.  The URL
query is carried already parsed (`determineAction` reads it only through
`Has`). -/
structure GoRequest where
  method : String
  path : String
  query : QueryValues
  headers : List (String × String)
  host : String
  remoteAddr : String
deriving Repr, DecidableEq

/-- `http.Header.Get`: the first value for the key, or `""`. -/
def headerGet (headers : List (String × String)) (k : String) : String :=
  match headers.lookup k with
  | some v => v
  | none => ""

def errMissingAuth : String := "missing Authorization header"
def errKeyMismatch : String := "access key mismatch"
def errMissingDate : String := "missing X-Amz-Date header"
def errBadDate : String := "invalid X-Amz-Date format"
def errStaleDate : String := "request timestamp is outside allowed window"
def errSigMismatch : String := "signature mismatch"

/-- `ParseAndValidate`.  The HMAC-SHA256 signature computation
(`computeSignature`, which never fails) is abstracted as the function
parameter `sigOf`; every theorem below holds for all `sigOf`, hence in
particular for the real canonical-request HMAC.  `hmac.Equal` on the two
hex strings is string equality. -/
def ParseAndValidate (sigOf : GoRequest → Credential → String) (now : Int)
    (r : GoRequest) (credential : Credential) :
    Except String SigV4Components :=
  let authHeader := headerGet r.headers "Authorization"
  if authHeader = "" then .error errMissingAuth
  else
    match ParseAuthHeader authHeader with
    | .error e => .error e
    | .ok components =>
        if components.accessKey ≠ credential.accessKey then
          .error errKeyMismatch
        else
          let amzDate := headerGet r.headers "X-Amz-Date"
          if amzDate = "" then .error errMissingDate
          else
            match parseAmzDate amzDate with
            | none => .error errBadDate
            | some requestTime =>
                if requestTime < now - 15 * 60 ∨ requestTime > now + 15 * 60
                  then .error errStaleDate
                else
                  if sigOf r credential = components.signature then
                    .ok components
                  else .error errSigMismatch

/-! ## S3 error responses (`internal/errors/errors.go`) -/

structure S3ErrorDoc where
  code : String
  message : String
  resource : String
  requestID : String
deriving Repr, DecidableEq

def authFailedMessage : String :=
  "The request signature we calculated does not match the signature you provided"

/-- `AccessDeniedError.ToS3Error`, as a function of the deny reason. -/
def ToS3Error (reason resource requestID : String) : S3ErrorDoc :=
  if reason = DenyTenantBoundary then
    { code := "AccessDenied",
      message := "Access denied: resource is outside your tenant boundary",
      resource := resource, requestID := requestID }
  else if reason = DenyPolicy then
    { code := "AccessDenied",
      message := "Access denied: action not permitted by policy",
      resource := resource, requestID := requestID }
  else if reason = DenyInvalidResource then
    { code := "InvalidRequest", message := "Invalid resource",
      resource := resource, requestID := requestID }
  else if reason = DenyAuthFailed then
    { code := "SignatureDoesNotMatch", message := authFailedMessage,
      resource := resource, requestID := requestID }
  else if reason = DenyInternalError then
    { code := "InternalError",
      message := "We encountered an internal error. Please try again.",
      resource := resource, requestID := requestID }
  else
    { code := "AccessDenied", message := "Access Denied",
      resource := resource, requestID := requestID }

/-- `AccessDeniedError.HTTPStatusCode`. -/
def HTTPStatusCode (reason : String) : Nat :=
  if reason = DenyAuthFailed then 403
  else if reason = DenyTenantBoundary ∨ reason = DenyPolicy then 403
  else if reason = DenyInvalidResource then 400
  else if reason = DenyInternalError then 500
  else 403

/-! ## Audit entries (`internal/audit/logger.go`)

The wall-clock timestamp and request duration of an entry are impure and
carry no information the claims mention; they are omitted from the
model.  `buildResourceARN` in the audit package is textually the same
function as `BuildResourceARN`. -/

structure Entry where
  requestID : String
  clientID : String
  tenantID : String
  action : String
  resource : String
  bucket : String
  key : String
  decision : String
  denyReason : String
  sourceIP : String
  userAgent : String
  statusCode : Nat
  errorMsg : String
deriving Repr, DecidableEq

def NewAllowEntry (requestID clientID tenantID action bucket key sourceIP
    userAgent : String) (statusCode : Nat) : Entry :=
  { requestID := requestID, clientID := clientID, tenantID := tenantID,
    action := action, resource := BuildResourceARN bucket key,
    bucket := bucket, key := key, decision := "allow", denyReason := "",
    sourceIP := sourceIP, userAgent := userAgent, statusCode := statusCode,
    errorMsg := "" }

def NewDenyEntry (requestID clientID tenantID action bucket key sourceIP
    userAgent denyReason : String) : Entry :=
  { requestID := requestID, clientID := clientID, tenantID := tenantID,
    action := action, resource := BuildResourceARN bucket key,
    bucket := bucket, key := key, decision := "deny",
    denyReason := denyReason, sourceIP := sourceIP, userAgent := userAgent,
    statusCode := 0, errorMsg := "" }

/-! ## Gateway handler (`internal/proxy/gateway.go`) -/

structure S3Request where
  bucket : String
  key : String
  action : String
  httpMethod : String
deriving Repr, DecidableEq

def S3Request.ToARN (r : S3Request) : String :=
  BuildResourceARN r.bucket r.key

/-- `ParseS3Request` (its Go counterpart always returns a nil error). -/
def ParseS3Request (r : GoRequest) : S3Request :=
  let bk := parsePath r.path
  { bucket := bk.1, key := bk.2,
    action := determineAction r.method bk.1 bk.2 r.query,
    httpMethod := r.method }

structure AuthContext where
  clientID : String
  tenantID : String
  accessKey : String
  policies : List String
  scopes : List String
deriving Repr, DecidableEq

def credNotFound (accessKey : String) : String :=
  "credential not found for access key: " ++ accessKey

/-- `InMemoryCredentialStore.GetCredential`; the store map is a list
with unique access keys. -/
def GetCredential (creds : List Credential) (accessKey : String) :
    Except String Credential :=
  match creds.find? (fun c => c.accessKey = accessKey) with
  | some c => .ok c
  | none => .error (credNotFound accessKey)

/-- `Gateway.authenticate`. -/
def authenticate (creds : List Credential)
    (sigOf : GoRequest → Credential → String) (now : Int) (r : GoRequest) :
    Except String AuthContext :=
  let authHeader := headerGet r.headers "Authorization"
  if authHeader = "" then .error errMissingAuth
  else
    match ParseAuthHeader authHeader with
    | .error e => .error e
    | .ok components =>
        match GetCredential creds components.accessKey with
        | .error e => .error e
        | .ok cred =>
            match ParseAndValidate sigOf now r cred with
            | .error e => .error e
            | .ok _ =>
                .ok { clientID := cred.clientID, tenantID := cred.tenantID,
                      accessKey := cred.accessKey, policies := cred.policies,
                      scopes := cred.scopes }

/-- `Gateway.checkTenantBoundary`. -/
def checkTenantBoundary (authCtx : AuthContext) (s3req : S3Request) : Bool :=
  if authCtx.scopes.length = 0 then false
  else MatchScope s3req.bucket authCtx.scopes

/-- `strings.TrimSpace` over the ASCII whitespace the model uses. -/
def trimSpace (s : String) : String :=
  String.mk ((s.toList.dropWhile isSpaceChar).reverse.dropWhile
    isSpaceChar).reverse

/-- `getClientIP`. -/
def getClientIP (r : GoRequest) : String :=
  let xff := headerGet r.headers "X-Forwarded-For"
  if xff ≠ "" then
    trimSpace (String.mk (splitOnceChar ',' xff.toList).1)
  else
    let xri := headerGet r.headers "X-Real-IP"
    if xri ≠ "" then xri
    else
      let addr := r.remoteAddr.toList
      if addr.contains ':' then
        String.mk (addr.reverse.dropWhile (fun c => c ≠ ':')).reverse.dropLast
      else r.remoteAddr

def userAgentOf (r : GoRequest) : String :=
  headerGet r.headers "User-Agent"

structure S3Response where
  statusCode : Nat
  headers : List (String × String)
deriving Repr, DecidableEq

/-- What the handler writes back to the client. -/
inductive Response
  | errorDoc (status : Nat) (doc : S3ErrorDoc)
  | proxied (status : Nat) (headers : List (String × String))
  | health
deriving Repr, DecidableEq

/-- The externally visible effects of one `ServeHTTP` call, in program
order. -/
inductive Event
  | evaluateCalled (ctx : EvalContext) (names : List String)
  | forwardCalled
  | auditLogged (e : Entry)
  | responded (resp : Response)
deriving Repr, DecidableEq

/-- The per-request inputs `ServeHTTP` receives from its environment:
the credential and policy snapshots, the signature computation, the
current time, the generated request id, and the outcome of the backend
`Forward` call (an oracle; `ServeHTTP` consults it at most once). -/
structure Deps where
  creds : List Credential
  store : List Policy
  sigOf : GoRequest → Credential → String
  now : Int
  requestID : String
  forwardResult : Except String S3Response

/-- `Gateway.handleError`: one deny audit entry, then the S3 XML error
response. -/
def handleError (requestID clientID tenantID : String) (s3req : S3Request)
    (reason : String) (r : GoRequest) : List Event :=
  [ .auditLogged (NewDenyEntry requestID clientID tenantID s3req.action
      s3req.bucket s3req.key (getClientIP r) (userAgentOf r) reason),
    .responded (.errorDoc (HTTPStatusCode reason)
      (ToS3Error reason (s3req.bucket ++ "/" ++ s3req.key) requestID)) ]

/-- `strings.Contains`. -/
def containsSub (s sub : List Char) : Bool :=
  match s with
  | [] => (stripLit sub []).isSome
  | _ :: rest => (stripLit sub s).isSome || containsSub rest sub

/-- `Gateway.handleS3Error`: a deny audit entry tagged `S3_ERROR` with
the raw backend message, then an S3 error mapped by substring. -/
def handleS3Error (requestID clientID tenantID : String) (s3req : S3Request)
    (errMsg : String) (r : GoRequest) : List Event :=
  let entry :=
    { NewDenyEntry requestID clientID tenantID s3req.action s3req.bucket
        s3req.key (getClientIP r) (userAgentOf r) "S3_ERROR" with
      errorMsg := errMsg }
  let doc :=
    if containsSub errMsg.toList "NoSuchKey".toList ||
        containsSub errMsg.toList "NotFound".toList then
      Response.errorDoc 404
        { code := "NoSuchKey", message := "The specified key does not exist.",
          resource := "", requestID := requestID }
    else if containsSub errMsg.toList "NoSuchBucket".toList then
      Response.errorDoc 404
        { code := "NoSuchBucket",
          message := "The specified bucket does not exist.",
          resource := "", requestID := requestID }
    else
      Response.errorDoc 500
        { code := "InternalError",
          message := "We encountered an internal error. Please try again.",
          resource := "", requestID := requestID }
  [.auditLogged entry, .responded doc]

/-- `Gateway.ServeHTTP`, as the ordered list of its external effects. -/
def ServeHTTP (d : Deps) (r : GoRequest) : List Event :=
  if r.path = "/health" then [.responded .health]
  else
    let s3req := ParseS3Request r
    if s3req.bucket = "" then
      handleError d.requestID "" "" s3req DenyInvalidResource r
    else
      match authenticate d.creds d.sigOf d.now r with
      | .error _ => handleError d.requestID "" "" s3req DenyAuthFailed r
      | .ok authCtx =>
          if !checkTenantBoundary authCtx s3req then
            handleError d.requestID authCtx.clientID authCtx.tenantID s3req
              DenyTenantBoundary r
          else
            let evalCtx : EvalContext :=
              { clientID := authCtx.clientID, tenantID := authCtx.tenantID,
                action := s3req.action, resource := s3req.ToARN,
                bucket := s3req.bucket, key := s3req.key,
                conditions := [("aws:SourceIp", getClientIP r)] }
            let decision := Evaluate d.store evalCtx authCtx.policies
            .evaluateCalled evalCtx authCtx.policies ::
              (if !decision.allowed then
                handleError d.requestID authCtx.clientID authCtx.tenantID
                  s3req decision.denyReason r
              else
                .forwardCalled ::
                  (match d.forwardResult with
                   | .error e =>
                       handleS3Error d.requestID authCtx.clientID
                         authCtx.tenantID s3req e r
                   | .ok resp =>
                       [ .auditLogged (NewAllowEntry d.requestID
                           authCtx.clientID authCtx.tenantID s3req.action
                           s3req.bucket s3req.key (getClientIP r)
                           (userAgentOf r) resp.statusCode),
                         .responded (.proxied resp.statusCode
                           resp.headers) ]))

/-! ## Lemmas about the list helpers -/

theorem stripLit_self_append (l cs : List Char) :
    stripLit l (l ++ cs) = some cs := by
  induction l with
  | nil => rfl
  | cons c ls ih => simp [stripLit, ih]

theorem splitOnceChar_of_not_mem {sep : Char} {cs : List Char}
    (h : sep ∉ cs) : splitOnceChar sep cs = (cs, none) := by
  induction cs with
  | nil => rfl
  | cons c rest ih =>
      simp only [List.mem_cons, not_or] at h
      simp [splitOnceChar, Ne.symm h.1, ih h.2]

theorem splitOnceChar_append {sep : Char} {b : List Char}
    (k : List Char) (h : sep ∉ b) :
    splitOnceChar sep (b ++ sep :: k) = (b, some k) := by
  induction b with
  | nil => simp [splitOnceChar]
  | cons c rest ih =>
      simp only [List.mem_cons, not_or] at h
      simp [splitOnceChar, Ne.symm h.1, ih h.2]

theorem string_mk_data (s : String) : String.mk s.data = s := rfl

/-! ## Claim C6: ARN round trip -/

/-- **C6, counterexample.**  The claim quantifies over every non-empty
bucket string; for the bucket `"a/b"` (which contains a `/`) the round
trip does not return the original pair:
`ParseResourceARN (BuildResourceARN "a/b" "")` is `("a", "b", true)`,
not `("a/b", "", true)`. -/
theorem parse_build_arn_fails_on_slash_bucket :
    ParseResourceARN (BuildResourceARN "a/b" "") ≠ ("a/b", "", true) := by
  decide

/-- **C6, amended.**  For every non-empty bucket `b` that contains no
`/` and arbitrary key `k`, `ParseResourceARN (BuildResourceARN b k)`
returns exactly `(b, k, true)`; and `ParseResourceARN` fails (returns
`ok = false`) on every string that does not start with the literal
prefix `arn:aws:s3:::`. -/
theorem parse_build_arn_roundtrip (b k : String) (hb : b ≠ "")
    (hs : '/' ∉ b.data) :
    ParseResourceARN (BuildResourceARN b k) = (b, k, true) ∧
      ∀ arn : String, stripLit arnHead.data arn.data = none →
        (ParseResourceARN arn).2.2 = false := by
  constructor
  · by_cases hk : k = ""
    · subst hk
      have hkda : (BuildResourceARN b "").data = arnHead.data ++ b.data := by
        simp [BuildResourceARN, String.data_append]
      simp only [ParseResourceARN, String.toList, hkda,
        stripLit_self_append, splitOnceChar_of_not_mem hs, string_mk_data]
    · have hkda : (BuildResourceARN b k).data =
          arnHead.data ++ (b.data ++ '/' :: k.data) := by
        simp [BuildResourceARN, if_neg hk, String.data_append]
      simp only [ParseResourceARN, String.toList, hkda,
        stripLit_self_append, splitOnceChar_append _ hs, string_mk_data]
  · intro arn h
    simp [ParseResourceARN, String.toList, h]

/-- Witness for the amended C6 at `b = "mybucket"`, `k = "path/to/o"`,
and at a string without the ARN prefix. -/
theorem parse_build_arn_roundtrip_witness :
    ParseResourceARN (BuildResourceARN "mybucket" "path/to/o") =
        ("mybucket", "path/to/o", true) ∧
      (ParseResourceARN "s3://mybucket/x").2.2 = false :=
  ⟨(parse_build_arn_roundtrip "mybucket" "path/to/o" (by decide)
      (by decide)).1,
    (parse_build_arn_roundtrip "mybucket" "path/to/o" (by decide)
      (by decide)).2 "s3://mybucket/x" (by decide)⟩

/-! ## Claim C10: totality of `determineAction` -/

/-- **C10.**  `determineAction` is total: every HTTP method, bucket,
key and query yield an action string starting with `"s3:"`; a method
outside GET, HEAD, PUT, POST, DELETE with none of the special query
flags set yields the catch-all `"s3:Unknown"`; and the wildcard pattern
`"s3:*"` matches `"s3:Unknown"`. -/
theorem determineAction_total :
    (∀ (method bucket key : String) (query : QueryValues),
        "s3:".data.isPrefixOf (determineAction method bucket key query).data
          = true) ∧
      (∀ (method bucket key : String) (query : QueryValues),
        method ≠ MethodGet → method ≠ MethodHead → method ≠ MethodPut →
        method ≠ MethodPost → method ≠ MethodDelete →
        query.acl = false → query.versioning = false →
        query.lifecycle = false → query.policy = false →
        query.tagging = false → query.uploads = false →
        query.uploadId = false →
        determineAction method bucket key query = "s3:Unknown") ∧
      MatchAction "s3:Unknown" ["s3:*"] = true := by
  refine ⟨fun method bucket key query => ?_,
    fun method bucket key query hg hh hp hpo hd ha hv hl hpol ht hu hui => ?_,
    by decide⟩
  · unfold determineAction
    by_cases h1 : query.acl = true ∧ (method = MethodGet ∨ method = MethodPut)
    · rw [if_pos h1]; split_ifs <;> decide
    rw [if_neg h1]
    by_cases h2 : query.versioning = true ∧
      (method = MethodGet ∨ method = MethodPut)
    · rw [if_pos h2]; split_ifs <;> decide
    rw [if_neg h2]
    by_cases h3 : query.lifecycle = true ∧
      (method = MethodGet ∨ method = MethodPut ∨ method = MethodDelete)
    · rw [if_pos h3]; split_ifs <;> decide
    rw [if_neg h3]
    by_cases h4 : query.policy = true ∧
      (method = MethodGet ∨ method = MethodPut ∨ method = MethodDelete)
    · rw [if_pos h4]; split_ifs <;> decide
    rw [if_neg h4]
    by_cases h5 : query.tagging = true ∧
      (method = MethodGet ∨ method = MethodPut ∨ method = MethodDelete)
    · rw [if_pos h5]; split_ifs <;> decide
    rw [if_neg h5]
    by_cases h6 : query.uploads = true ∧
      (method = MethodPost ∨ method = MethodGet)
    · rw [if_pos h6]; split_ifs <;> decide
    rw [if_neg h6]
    by_cases h7 : query.uploadId = true ∧
      (method = MethodPut ∨ method = MethodPost ∨ method = MethodDelete ∨
        method = MethodGet)
    · rw [if_pos h7]; split_ifs <;> decide
    rw [if_neg h7]
    by_cases h8 : key = "" ∧
      (method = MethodGet ∨ method = MethodHead ∨ method = MethodPut ∨
        method = MethodDelete)
    · rw [if_pos h8]; split_ifs <;> decide
    rw [if_neg h8]
    split_ifs <;> decide
  · unfold determineAction
    rw [if_neg (fun h => h.2.elim hg hp),
      if_neg (fun h => h.2.elim hg hp),
      if_neg (fun h => h.2.elim hg (fun h2 => h2.elim hp hd)),
      if_neg (fun h => h.2.elim hg (fun h2 => h2.elim hp hd)),
      if_neg (fun h => h.2.elim hg (fun h2 => h2.elim hp hd)),
      if_neg (fun h => h.2.elim hpo hg),
      if_neg (fun h =>
        h.2.elim hp (fun h2 => h2.elim hpo (fun h3 => h3.elim hd hg))),
      if_neg (fun h =>
        h.2.elim hg (fun h2 => h2.elim hh (fun h3 => h3.elim hp hd))),
      if_neg hg, if_neg hh, if_neg hp, if_neg hpo, if_neg hd]

/-- Witness for C10 at the method `PATCH` with an empty query. -/
theorem determineAction_total_witness :
    "s3:".data.isPrefixOf (determineAction "PATCH" "b" "k" emptyQuery).data
        = true ∧
      determineAction "PATCH" "b" "k" emptyQuery = "s3:Unknown" ∧
      MatchAction "s3:Unknown" ["s3:*"] = true :=
  ⟨determineAction_total.1 "PATCH" "b" "k" emptyQuery,
    determineAction_total.2.1 "PATCH" "b" "k" emptyQuery (by decide)
      (by decide) (by decide) (by decide) (by decide) rfl rfl rfl rfl rfl rfl
      rfl,
    determineAction_total.2.2⟩

/-! ## Lemmas about the policy engine -/

/-- A policy containing a matching `Deny` statement always evaluates to
a deny decision (with reason `DENY_POLICY`), whatever the accumulator
holds. -/
theorem evaluatePolicyAux_deny {ctx : EvalContext} {name : String}
    {stmts : List Statement} {stmt : Statement} (hmem : stmt ∈ stmts)
    (hmatch : statementMatches ctx stmt = true)
    (heff : stmt.effect = EffectDeny) (acc : Option Decision) :
    ∃ sid, evaluatePolicyAux ctx name stmts acc =
      some (NewDenyDecision DenyPolicy name sid) := by
  induction stmts generalizing acc with
  | nil => cases hmem
  | cons s rest ih =>
      rcases List.mem_cons.mp hmem with rfl | hmem2
      · simp [evaluatePolicyAux, hmatch, heff]
      · by_cases hm : statementMatches ctx s = true
        · by_cases hd : s.effect = EffectDeny
          · exact ⟨s.sid, by simp [evaluatePolicyAux, hm, hd]⟩
          · by_cases ha : (s.effect = EffectAllow && acc.isNone) = true
            · have hstep : evaluatePolicyAux ctx name (s :: rest) acc =
                  evaluatePolicyAux ctx name rest
                    (some (NewAllowDecision name s.sid)) := by
                simp [evaluatePolicyAux, hm, hd, ha]
              rw [hstep]
              exact ih hmem2 _
            · have hstep : evaluatePolicyAux ctx name (s :: rest) acc =
                  evaluatePolicyAux ctx name rest acc := by
                simp [evaluatePolicyAux, hm, hd, ha]
              rw [hstep]
              exact ih hmem2 acc
        · have hstep : evaluatePolicyAux ctx name (s :: rest) acc =
              evaluatePolicyAux ctx name rest acc := by
            simp [evaluatePolicyAux, hm]
          rw [hstep]
          exact ih hmem2 acc

/-- If some listed policy in the store has a matching `Deny` statement,
the evaluation loop ends in a decision with `allowed = false`. -/
theorem EvaluateAux_deny {store : List Policy} {ctx : EvalContext}
    {names : List String} {name : String} {p : Policy} {stmt : Statement}
    (hname : name ∈ names) (hp : getPolicy store name = some p)
    (hmem : stmt ∈ p.statements) (hmatch : statementMatches ctx stmt = true)
    (heff : stmt.effect = EffectDeny) (acc : Option Decision) :
    (EvaluateAux store ctx names acc).allowed = false := by
  induction names generalizing acc with
  | nil => cases hname
  | cons m rest ih =>
      rcases List.mem_cons.mp hname with rfl | hname2
      · obtain ⟨sid, hev⟩ :=
          @evaluatePolicyAux_deny ctx p.name p.statements stmt hmem hmatch
            heff none
        simp [EvaluateAux, hp, evaluatePolicy, hev, NewDenyDecision]
      · cases hq : getPolicy store m with
        | none => simpa [EvaluateAux, hq] using ih hname2 acc
        | some q =>
            cases he : evaluatePolicy ctx q with
            | none => simpa [EvaluateAux, hq, he] using ih hname2 acc
            | some d =>
                by_cases hall : d.allowed = true
                · simpa [EvaluateAux, hq, he, hall] using
                    ih hname2 (if acc.isNone then some d else acc)
                · simp [EvaluateAux, hq, he, Bool.eq_false_iff.mpr hall,
                    Bool.eq_false_iff.mp (by simpa using hall)]

/-- With no matching `Allow` statement, a policy evaluates from an empty
accumulator to either no decision or a `DENY_POLICY` deny. -/
theorem evaluatePolicyAux_no_allow {ctx : EvalContext} {name : String}
    {stmts : List Statement}
    (hna : ∀ stmt ∈ stmts, statementMatches ctx stmt = true →
      stmt.effect ≠ EffectAllow) :
    evaluatePolicyAux ctx name stmts none = none ∨
      ∃ sid, evaluatePolicyAux ctx name stmts none =
        some (NewDenyDecision DenyPolicy name sid) := by
  induction stmts with
  | nil => exact Or.inl rfl
  | cons s rest ih =>
      by_cases hm : statementMatches ctx s = true
      · by_cases hd : s.effect = EffectDeny
        · exact Or.inr ⟨s.sid, by simp [evaluatePolicyAux, hm, hd]⟩
        · have hal : s.effect ≠ EffectAllow := hna s (by simp) hm
          have := ih (fun t ht hmt => hna t (List.mem_cons_of_mem _ ht) hmt)
          simpa [evaluatePolicyAux, hm, hd, hal] using this
      · have := ih (fun t ht hmt => hna t (List.mem_cons_of_mem _ ht) hmt)
        simpa [evaluatePolicyAux, hm] using this

/-- With no matching `Allow` statement across the listed policies, the
evaluation loop from an empty accumulator denies with `DENY_POLICY`. -/
theorem EvaluateAux_no_allow {store : List Policy} {ctx : EvalContext}
    {names : List String}
    (hna : ∀ n ∈ names, ∀ p, getPolicy store n = some p →
      ∀ stmt ∈ p.statements, statementMatches ctx stmt = true →
        stmt.effect ≠ EffectAllow) :
    (EvaluateAux store ctx names none).allowed = false ∧
      (EvaluateAux store ctx names none).denyReason = DenyPolicy := by
  induction names with
  | nil => exact ⟨rfl, rfl⟩
  | cons m rest ih =>
      have ihrest := ih (fun n hn => hna n (List.mem_cons_of_mem _ hn))
      cases hq : getPolicy store m with
      | none => simpa [EvaluateAux, hq] using ihrest
      | some q =>
          rcases @evaluatePolicyAux_no_allow ctx q.name q.statements
              (hna m (by simp) q hq) with hev | ⟨sid, hev⟩
          · simpa [EvaluateAux, hq, evaluatePolicy, hev] using ihrest
          · simp [EvaluateAux, hq, evaluatePolicy, hev, NewDenyDecision]

/-- A policy with no matching statement at all evaluates to no
decision, whatever the accumulator holds. -/
theorem evaluatePolicyAux_no_match {ctx : EvalContext} {name : String}
    {stmts : List Statement}
    (hnm : ∀ stmt ∈ stmts, statementMatches ctx stmt = false)
    (acc : Option Decision) :
    evaluatePolicyAux ctx name stmts acc = acc := by
  induction stmts generalizing acc with
  | nil => rfl
  | cons s rest ih =>
      have hs := hnm s (by simp)
      simpa [evaluatePolicyAux, hs] using
        ih (fun t ht => hnm t (List.mem_cons_of_mem _ ht)) acc

/-- Skipping the names that are absent from the store does not change
the result of the evaluation loop. -/
theorem EvaluateAux_filter_known (store : List Policy) (ctx : EvalContext)
    (names : List String) (acc : Option Decision) :
    EvaluateAux store ctx names acc =
      EvaluateAux store ctx
        (names.filter (fun n => (getPolicy store n).isSome)) acc := by
  induction names generalizing acc with
  | nil => rfl
  | cons m rest ih =>
      cases hq : getPolicy store m with
      | none => simpa [EvaluateAux, hq, List.filter_cons] using ih acc
      | some q =>
          cases he : evaluatePolicy ctx q with
          | none => simpa [EvaluateAux, hq, he, List.filter_cons] using ih acc
          | some d =>
              by_cases hall : d.allowed = true
              · simpa [EvaluateAux, hq, he, hall, List.filter_cons] using
                  ih (if acc.isNone then some d else acc)
              · simp [EvaluateAux, hq, he, List.filter_cons,
                  Bool.eq_false_iff.mp (by simpa using hall)]

/-! ## Concrete fixtures used by witnesses -/

def stmtAllowAll : Statement :=
  { sid := "a"
    effect := "Allow"
    actions := ["s3:*"]
    resources := ["*"]
    conditions := [] }

def stmtDenyDelete : Statement :=
  { sid := "d"
    effect := "Deny"
    actions := ["s3:DeleteObject"]
    resources := ["*"]
    conditions := [] }

def stmtAllowGet : Statement :=
  { sid := "g"
    effect := "Allow"
    actions := ["s3:GetObject"]
    resources := ["*"]
    conditions := [] }

def polAllowAll : Policy :=
  { name := "allow-all", version := "1", statements := [stmtAllowAll] }

def polDenyDelete : Policy :=
  { name := "deny-delete", version := "1"
    statements := [stmtAllowAll, stmtDenyDelete] }

def polGetOnly : Policy :=
  { name := "p", version := "1", statements := [stmtAllowGet] }

def ctxOf (action : String) : EvalContext :=
  { clientID := "c"
    tenantID := "t"
    action := action
    resource := "arn:aws:s3:::b/k"
    bucket := "b"
    key := "k"
    conditions := [] }

/-! ## Claim C1: explicit deny wins -/

/-- **C1.**  If any statement of any policy named in the list and
present in the store matches the context with effect `Deny`, then
`Evaluate` returns a decision with `Allowed = false` — for every order
of policy names and of statements, and regardless of matching `Allow`
statements. -/
theorem evaluate_explicit_deny_wins (store : List Policy)
    (ctx : EvalContext) (names : List String)
    (h : ∃ name ∈ names, ∃ p, getPolicy store name = some p ∧
      ∃ stmt ∈ p.statements, statementMatches ctx stmt = true ∧
        stmt.effect = EffectDeny) :
    (Evaluate store ctx names).allowed = false := by
  obtain ⟨name, hname, p, hp, stmt, hmem, hmatch, heff⟩ := h
  exact EvaluateAux_deny hname hp hmem hmatch heff none

/-- Witness for C1: one `Allow` policy listed before a policy whose
second statement is a matching `Deny`. -/
theorem evaluate_explicit_deny_wins_witness :
    (Evaluate [polAllowAll, polDenyDelete] (ctxOf "s3:DeleteObject")
        ["allow-all", "deny-delete"]).allowed = false :=
  evaluate_explicit_deny_wins _ _ _
    ⟨"deny-delete", by decide, polDenyDelete, by decide, stmtDenyDelete,
      by decide, by decide, rfl⟩

/-! ## Claim C2: default deny -/

/-- **C2.**  With no matching `Allow` statement across the listed
policies, `Evaluate` denies with reason `DENY_POLICY`; when no statement
matches at all, the result is exactly the default deny decision. -/
theorem evaluate_default_deny (store : List Policy) (ctx : EvalContext)
    (names : List String)
    (h : ∀ n ∈ names, ∀ p, getPolicy store n = some p →
      ∀ stmt ∈ p.statements, statementMatches ctx stmt = true →
        stmt.effect ≠ EffectAllow) :
    ((Evaluate store ctx names).allowed = false ∧
        (Evaluate store ctx names).denyReason = DenyPolicy) ∧
      ((∀ n ∈ names, ∀ p, getPolicy store n = some p →
          ∀ stmt ∈ p.statements, statementMatches ctx stmt = false) →
        Evaluate store ctx names = DefaultDenyDecision) := by
  refine ⟨EvaluateAux_no_allow h, fun hnm => ?_⟩
  clear h
  unfold Evaluate
  induction names with
  | nil => rfl
  | cons m rest ih =>
      have ihrest := ih (fun n hn => hnm n (List.mem_cons_of_mem _ hn))
      cases hq : getPolicy store m with
      | none => simpa [EvaluateAux, hq] using ihrest
      | some q =>
          have hev : evaluatePolicy ctx q = none :=
            evaluatePolicyAux_no_match (hnm m (by simp) q hq) none
          simpa [EvaluateAux, hq, hev] using ihrest

/-- Witness for C2: a policy whose only statement does not match the
context's action. -/
theorem evaluate_default_deny_witness :
    ((Evaluate [polGetOnly] (ctxOf "s3:PutObject") ["p"]).allowed = false ∧
        (Evaluate [polGetOnly] (ctxOf "s3:PutObject") ["p"]).denyReason =
          DenyPolicy) ∧
      Evaluate [polGetOnly] (ctxOf "s3:PutObject") ["p"] =
        DefaultDenyDecision := by
  have h := evaluate_default_deny [polGetOnly] (ctxOf "s3:PutObject") ["p"]
    (by decide)
  exact ⟨h.1, h.2 (by decide)⟩

/-! ## Claim C9: unknown policy names are skipped -/

/-- **C9.**  `Evaluate` returns the same decision as `Evaluate` on the
sublist of names present in the store, and a list consisting only of
unknown names yields exactly the default deny. -/
theorem evaluate_skips_unknown (store : List Policy) (ctx : EvalContext)
    (names : List String) :
    Evaluate store ctx names =
        Evaluate store ctx
          (names.filter (fun n => (getPolicy store n).isSome)) ∧
      ((∀ n ∈ names, getPolicy store n = none) →
        Evaluate store ctx names = DefaultDenyDecision) := by
  refine ⟨EvaluateAux_filter_known store ctx names none, fun h => ?_⟩
  have hfilter : names.filter (fun n => (getPolicy store n).isSome) = [] := by
    refine List.filter_eq_nil_iff.mpr fun n hn => ?_
    simp [h n hn]
  rw [Evaluate, EvaluateAux_filter_known store ctx names none, hfilter]
  rfl

/-- Witness for C9: a store that knows `"p"` but not `"ghost"`. -/
theorem evaluate_skips_unknown_witness :
    Evaluate [polGetOnly] (ctxOf "s3:GetObject") ["ghost", "p"] =
        Evaluate [polGetOnly] (ctxOf "s3:GetObject")
          (["ghost", "p"].filter
            (fun n => (getPolicy [polGetOnly] n).isSome)) ∧
      Evaluate [polGetOnly] (ctxOf "s3:GetObject") ["ghost", "nobody"] =
        DefaultDenyDecision :=
  ⟨(evaluate_skips_unknown [polGetOnly] (ctxOf "s3:GetObject")
      ["ghost", "p"]).1,
    (evaluate_skips_unknown [polGetOnly] (ctxOf "s3:GetObject")
      ["ghost", "nobody"]).2 (by decide)⟩

/-! ## Claim C7: timestamp validation -/

theorem ParseAuthHeader_error_eq {s : String} {e : String}
    (h : ParseAuthHeader s = .error e) : e = authHeaderFormatError := by
  unfold ParseAuthHeader at h
  cases hf : findAuth s.toList with
  | none => rw [hf] at h; exact (Except.error.injEq _ _).mp h.symm
  | some c => rw [hf] at h; cases h

theorem except_error_ne {α : Type} {a b : String} (h : a ≠ b) :
    (Except.error a : Except String α) ≠ Except.error b :=
  fun hc => h ((Except.error.injEq _ _).mp hc)

theorem except_ok_ne {α : Type} (c : α) (b : String) :
    (Except.ok c : Except String α) ≠ Except.error b :=
  fun hc => Except.noConfusion hc

instance {ε α : Type} [DecidableEq ε] [DecidableEq α] :
    DecidableEq (Except ε α) := fun x y =>
  match x, y with
  | .ok a, .ok b =>
      if h : a = b then isTrue (by rw [h])
      else isFalse (fun hc => h (by injection hc))
  | .error a, .error b =>
      if h : a = b then isTrue (by rw [h])
      else isFalse (fun hc => h (by injection hc))
  | .ok _, .error _ => isFalse (fun hc => Except.noConfusion hc)
  | .error _, .ok _ => isFalse (fun hc => Except.noConfusion hc)

/-- **C7.**  `ParseAndValidate` at current time `now` returns an error
whenever `X-Amz-Date` is missing, whenever it does not parse in the
format `YYYYMMDDTHHMMSSZ`, and whenever it denotes a time `t` with
`t < now - 15min` or `t > now + 15min`; and a parseable timestamp whose
skew from `now` is at most 15 minutes is never rejected on timestamp
grounds (the result, error or not, is none of the three timestamp
errors). -/
theorem parse_and_validate_timestamp
    (sigOf : GoRequest → Credential → String) (now : Int) (r : GoRequest)
    (cred : Credential) :
    (headerGet r.headers "X-Amz-Date" = "" →
        ∃ e, ParseAndValidate sigOf now r cred = .error e) ∧
      (parseAmzDate (headerGet r.headers "X-Amz-Date") = none →
        ∃ e, ParseAndValidate sigOf now r cred = .error e) ∧
      (∀ t, parseAmzDate (headerGet r.headers "X-Amz-Date") = some t →
        t < now - 15 * 60 ∨ t > now + 15 * 60 →
        ∃ e, ParseAndValidate sigOf now r cred = .error e) ∧
      (∀ t, parseAmzDate (headerGet r.headers "X-Amz-Date") = some t →
        ¬t < now - 15 * 60 → ¬t > now + 15 * 60 →
        ParseAndValidate sigOf now r cred ≠ .error errMissingDate ∧
          ParseAndValidate sigOf now r cred ≠ .error errBadDate ∧
          ParseAndValidate sigOf now r cred ≠ .error errStaleDate) := by
  simp only [ParseAndValidate]
  by_cases h1 : headerGet r.headers "Authorization" = ""
  · rw [if_pos h1]
    exact ⟨fun _ => ⟨errMissingAuth, rfl⟩, fun _ => ⟨errMissingAuth, rfl⟩,
      fun t _ _ => ⟨errMissingAuth, rfl⟩,
      fun t _ _ _ => ⟨except_error_ne (by decide), except_error_ne (by decide),
        except_error_ne (by decide)⟩⟩
  rw [if_neg h1]
  cases hp : ParseAuthHeader (headerGet r.headers "Authorization") with
  | error e =>
      have he := ParseAuthHeader_error_eq hp
      subst he
      dsimp only
      exact ⟨fun _ => ⟨authHeaderFormatError, rfl⟩,
        fun _ => ⟨authHeaderFormatError, rfl⟩,
        fun t _ _ => ⟨authHeaderFormatError, rfl⟩,
        fun t _ _ _ => ⟨except_error_ne (by decide),
          except_error_ne (by decide), except_error_ne (by decide)⟩⟩
  | ok comps =>
      dsimp only
      by_cases hk : comps.accessKey ≠ cred.accessKey
      · rw [if_pos hk]
        exact ⟨fun _ => ⟨errKeyMismatch, rfl⟩, fun _ => ⟨errKeyMismatch, rfl⟩,
          fun t _ _ => ⟨errKeyMismatch, rfl⟩,
          fun t _ _ _ => ⟨except_error_ne (by decide),
            except_error_ne (by decide), except_error_ne (by decide)⟩⟩
      rw [if_neg hk]
      by_cases hmd : headerGet r.headers "X-Amz-Date" = ""
      · rw [if_pos hmd]
        refine ⟨fun _ => ⟨errMissingDate, rfl⟩, fun _ => ⟨errMissingDate, rfl⟩,
          fun t ht _ => ⟨errMissingDate, rfl⟩, fun t ht _ _ => ?_⟩
        rw [hmd] at ht
        cases ht.symm.trans (show parseAmzDate "" = none from rfl)
      rw [if_neg hmd]
      refine ⟨fun h => absurd h hmd, ?_, ?_, ?_⟩
      · intro hn
        rw [hn]
        exact ⟨errBadDate, rfl⟩
      · intro t ht hw
        rw [ht]
        dsimp only
        rw [if_pos hw]
        exact ⟨errStaleDate, rfl⟩
      · intro t ht hlo hhi
        rw [ht]
        dsimp only
        rw [if_neg (fun hw => hw.elim hlo hhi)]
        by_cases hs : sigOf r cred = comps.signature
        · rw [if_pos hs]
          exact ⟨except_ok_ne _ _, except_ok_ne _ _, except_ok_ne _ _⟩
        · rw [if_neg hs]
          exact ⟨except_error_ne (by decide), except_error_ne (by decide),
            except_error_ne (by decide)⟩

/-- Witness for C7: a request whose `X-Amz-Date` equals the model's
`now` (zero skew), together with concrete requests exercising the
missing-header, malformed and stale cases. -/
theorem parse_and_validate_timestamp_witness :
    (∃ e, ParseAndValidate (fun _ _ => "sig") 0
        { method := "GET", path := "/b/k", query := emptyQuery,
          headers := [], host := "h", remoteAddr := "a" }
        { accessKey := "AK", secretKey := "SK", clientID := "c",
          tenantID := "t", description := "", policies := [],
          scopes := [] } = .error e) ∧
      (ParseAndValidate (fun _ _ => "sig")
          (dateToSeconds 2026 1 1 0 0 0)
          { method := "GET", path := "/b/k", query := emptyQuery,
            headers := [("X-Amz-Date", "20260101T000000Z")], host := "h",
            remoteAddr := "a" }
          { accessKey := "AK", secretKey := "SK", clientID := "c",
            tenantID := "t", description := "", policies := [],
            scopes := [] } ≠ .error errStaleDate) := by
  constructor
  · exact (parse_and_validate_timestamp (fun _ _ => "sig") 0
      { method := "GET", path := "/b/k", query := emptyQuery,
        headers := [], host := "h", remoteAddr := "a" }
      { accessKey := "AK", secretKey := "SK", clientID := "c",
        tenantID := "t", description := "", policies := [],
        scopes := [] }).1 rfl
  · exact ((parse_and_validate_timestamp (fun _ _ => "sig")
      (dateToSeconds 2026 1 1 0 0 0)
      { method := "GET", path := "/b/k", query := emptyQuery,
        headers := [("X-Amz-Date", "20260101T000000Z")], host := "h",
        remoteAddr := "a" }
      { accessKey := "AK", secretKey := "SK", clientID := "c",
        tenantID := "t", description := "", policies := [],
        scopes := [] }).2.2.2 (dateToSeconds 2026 1 1 0 0 0) (by decide)
      (by decide) (by decide)).2.2

/-! ## Claim C3: tenant boundary denial precedes policy evaluation -/

theorem checkTenantBoundary_false {authCtx : AuthContext}
    {s3req : S3Request} (hs : MatchScope s3req.bucket authCtx.scopes = false) :
    checkTenantBoundary authCtx s3req = false := by
  unfold checkTenantBoundary
  split
  · rfl
  · exact hs

/-- **C3.**  For a request that parses (non-empty bucket) and
authenticates, if the bucket matches none of the credential's scope
patterns (in particular when the scope list is empty, since
`MatchScope` over an empty list is `false`), the handler emits a
`DENY_TENANT_BOUNDARY` audit entry and error response, never calls the
policy engine's `Evaluate`, and never calls the backend forwarder. -/
theorem tenant_boundary_denies_before_policy (d : Deps) (r : GoRequest)
    (authCtx : AuthContext) (hh : r.path ≠ "/health")
    (hb : (ParseS3Request r).bucket ≠ "")
    (ha : authenticate d.creds d.sigOf d.now r = .ok authCtx)
    (hs : MatchScope (ParseS3Request r).bucket authCtx.scopes = false) :
    ServeHTTP d r =
        [ .auditLogged (NewDenyEntry d.requestID authCtx.clientID
            authCtx.tenantID (ParseS3Request r).action
            (ParseS3Request r).bucket (ParseS3Request r).key
            (getClientIP r) (userAgentOf r) DenyTenantBoundary),
          .responded (.errorDoc 403 (ToS3Error DenyTenantBoundary
            ((ParseS3Request r).bucket ++ "/" ++ (ParseS3Request r).key)
            d.requestID)) ] ∧
      (NewDenyEntry d.requestID authCtx.clientID authCtx.tenantID
          (ParseS3Request r).action (ParseS3Request r).bucket
          (ParseS3Request r).key (getClientIP r) (userAgentOf r)
          DenyTenantBoundary).denyReason = DenyTenantBoundary ∧
      (∀ ctx names, Event.evaluateCalled ctx names ∉ ServeHTTP d r) ∧
      Event.forwardCalled ∉ ServeHTTP d r := by
  have hc : checkTenantBoundary authCtx (ParseS3Request r) = false :=
    checkTenantBoundary_false hs
  have hmain : ServeHTTP d r =
      [ .auditLogged (NewDenyEntry d.requestID authCtx.clientID
          authCtx.tenantID (ParseS3Request r).action
          (ParseS3Request r).bucket (ParseS3Request r).key
          (getClientIP r) (userAgentOf r) DenyTenantBoundary),
        .responded (.errorDoc 403 (ToS3Error DenyTenantBoundary
          ((ParseS3Request r).bucket ++ "/" ++ (ParseS3Request r).key)
          d.requestID)) ] := by
    simp only [ServeHTTP]
    rw [if_neg hh, if_neg hb, ha]
    dsimp only
    rw [if_pos (by rw [hc]; rfl)]
    simp only [handleError]
    rfl
  refine ⟨hmain, rfl, ?_, ?_⟩
  · intro ctx names
    rw [hmain]
    simp
  · rw [hmain]
    simp

/-- Witness for C3: a fully authenticated request whose credential has
an empty scope list. -/
def credNoScope : Credential :=
  { accessKey := "AKIA1"
    secretKey := "sk"
    clientID := "client-a"
    tenantID := "tenant-001"
    description := ""
    policies := ["p"]
    scopes := [] }

def witnessAuthHeader : String :=
  "AWS4-HMAC-SHA256 Credential=AKIA1/20260101/us-east-1/s3/aws4_request, SignedHeaders=host;x-amz-date, Signature=abc123"

def witnessRequest : GoRequest :=
  { method := "GET"
    path := "/tenant-001-data/file.txt"
    query := emptyQuery
    headers := [("Authorization", witnessAuthHeader),
      ("X-Amz-Date", "20260101T000000Z"), ("User-Agent", "tester")]
    host := "localhost"
    remoteAddr := "1.2.3.4:555" }

def witnessDeps : Deps :=
  { creds := [credNoScope]
    store := [polAllowAll]
    sigOf := fun _ _ => "abc123"
    now := dateToSeconds 2026 1 1 0 0 0
    requestID := "r1"
    forwardResult := .ok { statusCode := 200, headers := [] } }

def witnessAuthCtx : AuthContext :=
  { clientID := "client-a"
    tenantID := "tenant-001"
    accessKey := "AKIA1"
    policies := ["p"]
    scopes := [] }

theorem tenant_boundary_denies_before_policy_witness :
    (∀ ctx names,
        Event.evaluateCalled ctx names ∉ ServeHTTP witnessDeps
          witnessRequest) ∧
      Event.forwardCalled ∉ ServeHTTP witnessDeps witnessRequest :=
  ⟨(tenant_boundary_denies_before_policy witnessDeps witnessRequest
      witnessAuthCtx (by decide) (by decide) (by decide) (by decide)).2.2.1,
    (tenant_boundary_denies_before_policy witnessDeps witnessRequest
      witnessAuthCtx (by decide) (by decide) (by decide) (by decide)).2.2.2⟩

/-! ## Claim C4: authentication failures are indistinguishable -/

theorem ToS3Error_authFailed (resource requestID : String) :
    ToS3Error DenyAuthFailed resource requestID =
      { code := "SignatureDoesNotMatch", message := authFailedMessage,
        resource := resource, requestID := requestID } := by
  simp [ToS3Error, DenyAuthFailed, DenyTenantBoundary, DenyPolicy,
    DenyInvalidResource]

/-- Any authentication failure produces the same two-event outcome:
one `DENY_AUTH_FAILED` deny entry and a 403 `SignatureDoesNotMatch`
response with the fixed message. -/
theorem ServeHTTP_auth_failed (d : Deps) (r : GoRequest)
    (hh : r.path ≠ "/health") (hb : (ParseS3Request r).bucket ≠ "")
    (ha : ∃ e, authenticate d.creds d.sigOf d.now r = .error e) :
    ServeHTTP d r =
      [ .auditLogged (NewDenyEntry d.requestID "" ""
          (ParseS3Request r).action (ParseS3Request r).bucket
          (ParseS3Request r).key (getClientIP r) (userAgentOf r)
          DenyAuthFailed),
        .responded (.errorDoc 403
          { code := "SignatureDoesNotMatch", message := authFailedMessage,
            resource := (ParseS3Request r).bucket ++ "/" ++
              (ParseS3Request r).key,
            requestID := d.requestID }) ] := by
  obtain ⟨e, ha⟩ := ha
  simp only [ServeHTTP]
  rw [if_neg hh, if_neg hb, ha]
  dsimp only
  simp only [handleError, ToS3Error_authFailed]
  rfl

/-- **C4.**  Two requests that both fail authentication — for any of
the reasons `authenticate` can produce (missing header, unparseable
header, unknown access key, bad timestamp, signature mismatch) — have
identical client-visible outcomes apart from the request id: the same
403 status, the same `SignatureDoesNotMatch` code, the same fixed
message, and the same `DENY_AUTH_FAILED` audit reason. -/
theorem auth_failures_indistinguishable (d1 d2 : Deps) (r1 r2 : GoRequest)
    (hh1 : r1.path ≠ "/health") (hb1 : (ParseS3Request r1).bucket ≠ "")
    (ha1 : ∃ e, authenticate d1.creds d1.sigOf d1.now r1 = .error e)
    (hh2 : r2.path ≠ "/health") (hb2 : (ParseS3Request r2).bucket ≠ "")
    (ha2 : ∃ e, authenticate d2.creds d2.sigOf d2.now r2 = .error e) :
    ∃ e1 doc1 e2 doc2,
      ServeHTTP d1 r1 =
          [.auditLogged e1, .responded (.errorDoc 403 doc1)] ∧
        ServeHTTP d2 r2 =
          [.auditLogged e2, .responded (.errorDoc 403 doc2)] ∧
        e1.denyReason = DenyAuthFailed ∧ e2.denyReason = e1.denyReason ∧
        doc1.code = "SignatureDoesNotMatch" ∧ doc2.code = doc1.code ∧
        doc1.message = authFailedMessage ∧ doc2.message = doc1.message := by
  refine ⟨_, _, _, _, ServeHTTP_auth_failed d1 r1 hh1 hb1 ha1,
    ServeHTTP_auth_failed d2 r2 hh2 hb2 ha2, rfl, rfl, rfl, rfl, rfl, rfl⟩

/-- Witness for C4: a request with no `Authorization` header versus the
same request with a wrong signature for a known key. -/
def witnessNoAuthRequest : GoRequest :=
  { method := "GET"
    path := "/tenant-001-data/file.txt"
    query := emptyQuery
    headers := [("X-Amz-Date", "20260101T000000Z")]
    host := "localhost"
    remoteAddr := "1.2.3.4:555" }

def witnessBadSigDeps : Deps :=
  { creds := [credNoScope]
    store := [polAllowAll]
    sigOf := fun _ _ => "ffff"
    now := dateToSeconds 2026 1 1 0 0 0
    requestID := "r2"
    forwardResult := .ok { statusCode := 200, headers := [] } }

theorem auth_failures_indistinguishable_witness :
    ∃ e1 doc1 e2 doc2,
      ServeHTTP witnessDeps witnessNoAuthRequest =
          [.auditLogged e1, .responded (.errorDoc 403 doc1)] ∧
        ServeHTTP witnessBadSigDeps witnessRequest =
          [.auditLogged e2, .responded (.errorDoc 403 doc2)] ∧
        e1.denyReason = DenyAuthFailed ∧ e2.denyReason = e1.denyReason ∧
        doc1.code = "SignatureDoesNotMatch" ∧ doc2.code = doc1.code ∧
        doc1.message = authFailedMessage ∧ doc2.message = doc1.message :=
  auth_failures_indistinguishable witnessDeps witnessBadSigDeps
    witnessNoAuthRequest witnessRequest (by decide) (by decide)
    ⟨errMissingAuth, by decide⟩ (by decide) (by decide)
    ⟨errSigMismatch, by decide⟩

/-! ## Claim C5: exactly one audit entry per request -/

/-- **C5.**  Every non-`/health` request produces a trace of the form
`pre ++ [audit, respond]`: exactly one audit entry, written after the
decision is final (only `evaluateCalled`/`forwardCalled` precede it)
and before the response; its decision is `"allow"` or `"deny"`, and it
is `"allow"` exactly when the request reached the forwarder and the
forward succeeded. -/
theorem audit_logged_exactly_once (d : Deps) (r : GoRequest)
    (hh : r.path ≠ "/health") :
    ∃ pre e resp,
      ServeHTTP d r = pre ++ [.auditLogged e, .responded resp] ∧
        (∀ e2, Event.auditLogged e2 ∉ pre) ∧
        (∀ resp2, Event.responded resp2 ∉ pre) ∧
        (e.decision = "allow" ∨ e.decision = "deny") ∧
        (e.decision = "allow" ↔
          Event.forwardCalled ∈ pre ∧ ∃ ok, d.forwardResult = .ok ok) := by
  simp only [ServeHTTP]
  rw [if_neg hh]
  by_cases hb : (ParseS3Request r).bucket = ""
  · rw [if_pos hb]
    exact ⟨[], _, _, rfl, by simp, by simp, Or.inr rfl,
      by simp [NewDenyEntry]⟩
  rw [if_neg hb]
  cases hauth : authenticate d.creds d.sigOf d.now r with
  | error e =>
      exact ⟨[], _, _, rfl, by simp, by simp, Or.inr rfl,
        by simp [NewDenyEntry]⟩
  | ok authCtx =>
      dsimp only
      cases hc : checkTenantBoundary authCtx (ParseS3Request r) with
      | false =>
          rw [if_pos (by simp [hc])]
          exact ⟨[], _, _, rfl, by simp, by simp, Or.inr rfl,
            by simp [NewDenyEntry]⟩
      | true =>
          rw [if_neg (by simp [hc])]
          cases hd : (Evaluate d.store
              { clientID := authCtx.clientID, tenantID := authCtx.tenantID,
                action := (ParseS3Request r).action,
                resource := (ParseS3Request r).ToARN,
                bucket := (ParseS3Request r).bucket,
                key := (ParseS3Request r).key,
                conditions := [("aws:SourceIp", getClientIP r)] }
              authCtx.policies).allowed with
          | false =>
              rw [if_pos (by simp [hd])]
              exact ⟨[.evaluateCalled _ _], _, _, rfl, by simp, by simp,
                Or.inr rfl, by simp [NewDenyEntry]⟩
          | true =>
              rw [if_neg (by simp [hd])]
              cases hf : d.forwardResult with
              | error msg =>
                  refine ⟨[.evaluateCalled _ _, .forwardCalled], _, _, rfl,
                    by simp, by simp, Or.inr rfl, ?_⟩
                  simp only [handleS3Error]
                  constructor
                  · intro hdec
                    exact absurd hdec (by simp [NewDenyEntry])
                  · rintro ⟨-, ok, hok⟩
                    exact Except.noConfusion hok
              | ok resp =>
                  refine ⟨[.evaluateCalled _ _, .forwardCalled], _, _, rfl,
                    by simp, by simp, Or.inl rfl, ?_⟩
                  simp only [NewAllowEntry]
                  constructor
                  · intro _
                    exact ⟨by simp, resp, rfl⟩
                  · intro _
                    trivial

/-- Witness for C5 at the allow path of the concrete request. -/
def witnessScopedCred : Credential :=
  { credNoScope with scopes := ["tenant-001-*"], policies := ["allow-all"] }

def witnessAllowDeps : Deps :=
  { witnessDeps with creds := [witnessScopedCred] }

theorem audit_logged_exactly_once_witness :
    ∃ pre e resp,
      ServeHTTP witnessAllowDeps witnessRequest =
          pre ++ [.auditLogged e, .responded resp] ∧
        (∀ e2, Event.auditLogged e2 ∉ pre) ∧
        (∀ resp2, Event.responded resp2 ∉ pre) ∧
        (e.decision = "allow" ∨ e.decision = "deny") ∧
        (e.decision = "allow" ↔
          Event.forwardCalled ∈ pre ∧
            ∃ ok, witnessAllowDeps.forwardResult = .ok ok) :=
  audit_logged_exactly_once witnessAllowDeps witnessRequest (by decide)

/-! ## Claim C8: `ParseAuthHeader` -/

def buildAuthHeader (ak date region service sh sig : String) : String :=
  "AWS4-HMAC-SHA256 Credential=" ++ ak ++ "/" ++ date ++ "/" ++ region ++
    "/" ++ service ++ "/aws4_request, SignedHeaders=" ++ sh ++
    ", Signature=" ++ sig

theorem takeWhile_append_cons (p : Char → Bool) (xs : List Char) (c : Char)
    (rest : List Char) (hall : ∀ x ∈ xs, p x = true) (hc : p c = false) :
    (xs ++ c :: rest).takeWhile p = xs := by
  induction xs with
  | nil => simp [List.takeWhile_cons, hc]
  | cons a as ih =>
      simp only [List.cons_append, List.takeWhile_cons, hall a (by simp),
        if_true]
      rw [ih (fun x hx => hall x (List.mem_cons_of_mem _ hx))]

theorem takeClass1_append (p : Char → Bool) (xs : List Char) (c : Char)
    (rest : List Char) (hne : xs ≠ []) (hall : ∀ x ∈ xs, p x = true)
    (hc : p c = false) :
    takeClass1 p (xs ++ c :: rest) = some (xs, c :: rest) := by
  unfold takeClass1
  rw [takeWhile_append_cons p xs c rest hall hc]
  obtain ⟨a, as, rfl⟩ := List.exists_cons_of_ne_nil hne
  dsimp only
  rw [show (a :: as).length = (a :: as).length from rfl, List.drop_left]

theorem takeWhile_eq_self (p : Char → Bool) (xs : List Char)
    (hall : ∀ x ∈ xs, p x = true) : xs.takeWhile p = xs := by
  induction xs with
  | nil => rfl
  | cons a as ih =>
      simp only [List.takeWhile_cons, hall a (by simp), if_true]
      rw [ih (fun x hx => hall x (List.mem_cons_of_mem _ hx))]

theorem takeClass1_all (p : Char → Bool) (xs : List Char) (hne : xs ≠ [])
    (hall : ∀ x ∈ xs, p x = true) : takeClass1 p xs = some (xs, []) := by
  unfold takeClass1
  rw [takeWhile_eq_self p xs hall]
  obtain ⟨a, as, rfl⟩ := List.exists_cons_of_ne_nil hne
  dsimp only
  rw [List.drop_length]

theorem takeDigits8_append (date rest : List Char) (hlen : date.length = 8)
    (hdig : ∀ c ∈ date, c.isDigit = true) :
    takeDigits8 (date ++ rest) = some (date, rest) := by
  unfold takeDigits8
  have h1 : (date ++ rest).take 8 = date := by
    rw [← hlen]; exact List.take_left _ _
  have h2 : (date ++ rest).drop 8 = rest := by
    rw [← hlen]; exact List.drop_left _ _
  have hcond : (decide (date.length = 8) && date.all Char.isDigit) = true := by
    simp [hlen, List.all_eq_true]
    exact hdig
  rw [h1, h2, if_pos hcond]

theorem stripLit_cons_self (c : Char) (l rest : List Char) :
    stripLit (c :: l) (c :: rest) = stripLit l rest := by
  simp [stripLit]

theorem takeClass0_cons_space (l : List Char) :
    takeClass0 isSpaceChar (' ' :: l) = takeClass0 isSpaceChar l := by
  simp [takeClass0, List.dropWhile_cons]
  intro h
  exact absurd h (by decide)

theorem takeClass0_cons_not (c : Char) (l : List Char)
    (hc : isSpaceChar c = false) :
    takeClass0 isSpaceChar (c :: l) = c :: l := by
  simp [takeClass0, List.dropWhile_cons, hc]

theorem takeClass1_space_one (c : Char) (rest : List Char)
    (hc : isSpaceChar c = false) :
    takeClass1 isSpaceChar (' ' :: c :: rest) = some ([' '], c :: rest) :=
  takeClass1_append isSpaceChar [' '] c rest (by simp)
    (fun x hx => by simp at hx; subst hx; decide) hc

theorem stripLit_single (c : Char) (rest : List Char) :
    stripLit [c] (c :: rest) = some rest := by
  simp [stripLit]

theorem stripLit_nil (cs : List Char) : stripLit [] cs = some cs := rfl

/-- The deterministic regex attempt succeeds at the start of a
well-formed clause and extracts exactly the six submatches, for any
trailing content that does not start with a lowercase-hex character
(a hex-headed tail would be absorbed by the greedy `[a-f0-9]+` run,
exactly as in the Go regex). -/
theorem matchAuthAt_wellformed (ak date region service sh sig tail :
      List Char)
    (hak1 : ak ≠ []) (hak2 : ∀ x ∈ ak, decide (x ≠ '/') = true)
    (hdl : date.length = 8) (hdd : ∀ c ∈ date, c.isDigit = true)
    (hr1 : region ≠ []) (hr2 : ∀ x ∈ region, decide (x ≠ '/') = true)
    (hs1 : service ≠ []) (hs2 : ∀ x ∈ service, decide (x ≠ '/') = true)
    (hsh1 : sh ≠ []) (hsh2 : ∀ x ∈ sh, decide (x ≠ ',') = true)
    (hg1 : sig ≠ []) (hg2 : ∀ c ∈ sig, isHexLower c = true)
    (htail : tail = [] ∨ ∃ c ts, tail = c :: ts ∧ isHexLower c = false) :
    matchAuthAt (schemeLit ++ ' ' ::
        ("Credential=".data ++ ak ++ '/' :: date ++ '/' :: region ++
          '/' :: service ++ "/aws4_request,".data ++ ' ' ::
          "SignedHeaders=".data ++ sh ++ ',' :: ' ' ::
          "Signature=".data ++ sig ++ tail)) =
      some { accessKey := String.mk ak, date := String.mk date,
             region := String.mk region, service := String.mk service,
             signedHeaders := (splitAllChar ';' sh).map String.mk,
             signature := String.mk sig } := by
  unfold matchAuthAt
  simp only [schemeLit, String.toList, List.cons_append, List.nil_append,
    List.append_assoc]
  simp only [stripLit_cons_self, stripLit_nil, Option.some.injEq]
  rw [takeClass1_space_one 'C' _ (by decide)]
  dsimp only
  simp only [stripLit_cons_self, stripLit_nil, Option.some.injEq]
  rw [takeClass1_append (fun c => decide (c ≠ '/')) ak '/' _ hak1 hak2
    (by decide)]
  dsimp only
  simp only [stripLit_cons_self, stripLit_nil, Option.some.injEq]
  rw [takeDigits8_append date _ hdl hdd]
  dsimp only
  simp only [stripLit_cons_self, stripLit_nil, Option.some.injEq]
  rw [takeClass1_append (fun c => decide (c ≠ '/')) region '/' _ hr1 hr2
    (by decide)]
  dsimp only
  simp only [stripLit_cons_self, stripLit_nil, Option.some.injEq]
  rw [takeClass1_append (fun c => decide (c ≠ '/')) service '/' _ hs1 hs2
    (by decide)]
  dsimp only
  unfold matchAuthTail
  simp only [String.toList, List.cons_append, List.nil_append,
    List.append_assoc]
  simp only [stripLit_cons_self, stripLit_nil, Option.some.injEq]
  rw [takeClass0_cons_space, takeClass0_cons_not 'S' _ (by decide)]
  simp only [stripLit_cons_self, stripLit_nil, Option.some.injEq]
  rw [takeClass1_append (fun c => decide (c ≠ ',')) sh ',' _ hsh1 hsh2
    (by decide)]
  dsimp only
  simp only [stripLit_cons_self, stripLit_nil, Option.some.injEq]
  rw [takeClass0_cons_space, takeClass0_cons_not 'S' _ (by decide)]
  simp only [stripLit_cons_self, stripLit_nil, Option.some.injEq]
  have hlast : ∃ rest2,
      takeClass1 isHexLower (sig ++ tail) = some (sig, rest2) := by
    rcases htail with rfl | ⟨c, ts, rfl, hcx⟩
    · rw [List.append_nil]
      exact ⟨[], takeClass1_all isHexLower sig hg1 hg2⟩
    · exact ⟨c :: ts, takeClass1_append isHexLower sig c ts hg1 hg2 hcx⟩
  obtain ⟨rest2, hlast⟩ := hlast
  rw [hlast]

theorem stripLit_some_append {l cs rest : List Char}
    (h : stripLit l cs = some rest) : cs = l ++ rest := by
  induction l generalizing cs with
  | nil =>
      simp only [stripLit, Option.some.injEq] at h
      rw [h, List.nil_append]
  | cons c ls ih =>
      cases cs with
      | nil => cases h
      | cons a as =>
          by_cases ha : a = c
          · subst ha
            rw [stripLit_cons_self] at h
            rw [ih h, List.cons_append]
          · rw [show stripLit (c :: ls) (a :: as) = none by
              simp [stripLit, ha]] at h
            cases h

theorem matchAuthAt_some_head {cs : List Char} {comps : SigV4Components}
    (h : matchAuthAt cs = some comps) : ∃ rest, cs = schemeLit ++ rest := by
  unfold matchAuthAt at h
  cases hs : stripLit schemeLit cs with
  | none => rw [hs] at h; cases h
  | some rest => exact ⟨rest, stripLit_some_append hs⟩

theorem findAuth_head {cs : List Char} {comps : SigV4Components}
    (h : matchAuthAt cs = some comps) : findAuth cs = some comps := by
  cases cs with
  | nil => simpa [findAuth] using h
  | cons c rest => simp [findAuth, h]

theorem findAuth_none {cs : List Char}
    (h : ¬List.IsInfix schemeLit cs) : findAuth cs = none := by
  induction cs with
  | nil =>
      cases hm : matchAuthAt [] with
      | none => simpa [findAuth] using hm
      | some comps =>
          obtain ⟨rest, hrest⟩ := matchAuthAt_some_head hm
          rw [show schemeLit = "AWS4-HMAC-SHA256".toList from rfl] at hrest
          cases hrest
  | cons c rest ih =>
      cases hm : matchAuthAt (c :: rest) with
      | some comps =>
          obtain ⟨tail, htail⟩ := matchAuthAt_some_head hm
          exact absurd ⟨[], tail, by rw [List.nil_append, htail]⟩ h
      | none =>
          have hrest : ¬List.IsInfix schemeLit rest := by
            rintro ⟨pre, post, hpp⟩
            exact h ⟨c :: pre, post, by rw [← hpp]; simp⟩
          simp [findAuth, hm, ih hrest]

/-- The left-to-right scan of `FindStringSubmatch` skips any leading
content in which the scheme literal `AWS4-HMAC-SHA256` does not occur
(every attempt inside it fails at the initial literal). -/
theorem findAuth_skip (pre rest : List Char)
    (h : ∀ n, n < pre.length →
      ¬List.IsPrefix schemeLit ((pre ++ rest).drop n)) :
    findAuth (pre ++ rest) = findAuth rest := by
  induction pre with
  | nil => rw [List.nil_append]
  | cons c pre2 ih =>
      have hm : matchAuthAt (c :: (pre2 ++ rest)) = none := by
        cases hmm : matchAuthAt (c :: (pre2 ++ rest)) with
        | none => rfl
        | some comps =>
            obtain ⟨r2, hr2⟩ := matchAuthAt_some_head hmm
            exact absurd ⟨r2, hr2.symm⟩ (h 0 (Nat.succ_pos _))
      rw [List.cons_append,
        show findAuth (c :: (pre2 ++ rest)) = findAuth (pre2 ++ rest) by
          simp [findAuth, hm]]
      exact ih (fun n hn => h (n + 1) (Nat.succ_lt_succ hn))

/-- **C8, counterexample.**  The regex is not anchored, so a header
with arbitrary content around a well-formed credential clause parses
successfully instead of failing with
`invalid Authorization header format`, contradicting the claim that
every string with extra surrounding content is rejected. -/
theorem ParseAuthHeader_accepts_surrounded :
    ParseAuthHeader
        "junk AWS4-HMAC-SHA256 Credential=AK/20240101/us-east-1/s3/aws4_request, SignedHeaders=host, Signature=abc123 trailing" =
      .ok { accessKey := "AK", date := "20240101", region := "us-east-1",
            service := "s3", signedHeaders := ["host"],
            signature := "abc123" } := by
  decide

/-- **C8, amended.**  `ParseAuthHeader` succeeds not only on
exactly-formed headers of the documented shape
`AWS4-HMAC-SHA256 Credential={accessKey}/{8-digit date}/{region}/{service}/aws4_request, SignedHeaders={list}, Signature={lowercase hex}`
but on every string consisting of such a clause with arbitrary extra
surrounding content: any leading content in which the literal
`AWS4-HMAC-SHA256` does not occur, and any trailing content that does
not begin with a lowercase-hex character (a hex-headed tail is absorbed
into the greedy signature run).  From such a string it extracts the
five fields of the clause, splitting the signed-headers list on `;`.
It returns the error `invalid Authorization header format` for every
string in which the literal `AWS4-HMAC-SHA256` does not occur at all
(so for every header of another scheme). -/
theorem ParseAuthHeader_characterization :
    (∀ pre ak date region service sh sig post : String,
        ak.data ≠ [] → (∀ x ∈ ak.data, decide (x ≠ '/') = true) →
        date.data.length = 8 → (∀ c ∈ date.data, c.isDigit = true) →
        region.data ≠ [] → (∀ x ∈ region.data, decide (x ≠ '/') = true) →
        service.data ≠ [] → (∀ x ∈ service.data, decide (x ≠ '/') = true) →
        sh.data ≠ [] → (∀ x ∈ sh.data, decide (x ≠ ',') = true) →
        sig.data ≠ [] → (∀ c ∈ sig.data, isHexLower c = true) →
        (∀ n, n < pre.data.length →
          ¬List.IsPrefix schemeLit
            ((pre ++ buildAuthHeader ak date region service sh sig ++
              post).data.drop n)) →
        (post.data.take 1).all (fun c => !isHexLower c) = true →
        ParseAuthHeader
            (pre ++ buildAuthHeader ak date region service sh sig ++ post) =
          .ok { accessKey := ak, date := date, region := region,
                service := service,
                signedHeaders := (splitAllChar ';' sh.data).map String.mk,
                signature := sig }) ∧
      (∀ s : String, ¬List.IsInfix schemeLit s.data →
        ParseAuthHeader s = .error authHeaderFormatError) := by
  constructor
  · intro pre ak date region service sh sig post hak1 hak2 hdl hdd hr1 hr2
      hs1 hs2 hsh1 hsh2 hg1 hg2 hpre hpost
    have htail : post.data = [] ∨
        ∃ c ts, post.data = c :: ts ∧ isHexLower c = false := by
      cases hpd : post.data with
      | nil => exact Or.inl rfl
      | cons c ts =>
          refine Or.inr ⟨c, ts, rfl, ?_⟩
          rw [hpd] at hpost
          simpa using hpost
    have hdata :
        (pre ++ buildAuthHeader ak date region service sh sig ++
            post).toList =
          pre.data ++ (schemeLit ++ ' ' ::
            ("Credential=".data ++ ak.data ++ '/' :: date.data ++ '/' ::
              region.data ++ '/' :: service.data ++
              "/aws4_request,".data ++ ' ' :: "SignedHeaders=".data ++
              sh.data ++ ',' :: ' ' :: "Signature=".data ++ sig.data ++
              post.data)) := by
      simp [buildAuthHeader, schemeLit, String.toList, String.data_append,
        List.append_assoc]
    have hno := hpre
    rw [show (pre ++ buildAuthHeader ak date region service sh sig ++
        post).data =
      (pre ++ buildAuthHeader ak date region service sh sig ++
        post).toList from rfl, hdata] at hno
    unfold ParseAuthHeader
    rw [hdata, findAuth_skip pre.data _ hno,
      findAuth_head (matchAuthAt_wellformed ak.data date.data region.data
        service.data sh.data sig.data post.data hak1 hak2 hdl hdd hr1 hr2
        hs1 hs2 hsh1 hsh2 hg1 hg2 htail)]
  · intro s hno
    unfold ParseAuthHeader
    rw [show s.toList = s.data from rfl, findAuth_none hno]

/-- Witness for the amended C8: concrete field values with junk before
and after the clause, and a `Basic` scheme header for the error half. -/
theorem ParseAuthHeader_characterization_witness :
    ParseAuthHeader
          ("junk " ++ buildAuthHeader "AKIA9" "20260101" "eu-west-1" "s3"
            "host;x-amz-date" "deadbeef" ++ " trailing") =
        .ok { accessKey := "AKIA9", date := "20260101",
              region := "eu-west-1", service := "s3",
              signedHeaders :=
                (splitAllChar ';' "host;x-amz-date".data).map String.mk,
              signature := "deadbeef" } ∧
      ParseAuthHeader "Basic dXNlcjpwYXNz" = .error authHeaderFormatError :=
  ⟨ParseAuthHeader_characterization.1 "junk " "AKIA9" "20260101"
      "eu-west-1" "s3" "host;x-amz-date" "deadbeef" " trailing"
      (by decide) (by decide) (by decide) (by decide) (by decide)
      (by decide) (by decide) (by decide) (by decide) (by decide)
      (by decide) (by decide) (by decide) (by decide),
    ParseAuthHeader_characterization.2 "Basic dXNlcjpwYXNz" (by decide)⟩

end S3ACA
